import Mathlib

/-!
Verification of the Qbank2pdf question-bank PDF pipeline
(`pdf_processor.py`, `main.py`) against its specification.

The HTML output is embedded as a list of structured fragments, one fragment
per string piece appended by the Python code; string concatenation becomes
list concatenation.  The worker's `run` method is embedded as a function
from an environment (folders with parsed datasets, temp-file and renderer
outcomes) to a run result recording the emitted signal events and the
temporary-file lifecycle.
-/

/-- Python `str.replace('\\', '/')` on a path (per-character). -/
def replace_backslashes (s : String) : String :=
  String.mk (s.toList.map (fun c => if c = '\\' then '/' else c))

/-- Whether one character list begins with another (kernel-reducible
`str.startswith`). -/
def list_starts_with : List Char → List Char → Bool
  | _, [] => true
  | [], _ :: _ => false
  | a :: as, b :: bs => if a = b then list_starts_with as bs else false

/-- `str.startswith` on strings. -/
def str_starts_with (s pre : String) : Bool :=
  list_starts_with s.toList pre.toList

/-- Whether a string ends with the given character. -/
def ends_with_char (s : String) (c : Char) : Bool :=
  match s.toList.getLast? with
  | some d => d = c
  | none => false

/-- Fuel-driven left-to-right non-overlapping replacement of one character
pattern by another (`str.replace`); the fuel is the input length. -/
def replace_all_aux (pat repl : List Char) : Nat → List Char → List Char
  | 0, s => s
  | _ + 1, [] => []
  | fuel + 1, c :: rest =>
      if pat ≠ [] ∧ list_starts_with (c :: rest) pat then
        repl ++ replace_all_aux pat repl fuel (List.drop (pat.length - 1) rest)
      else
        c :: replace_all_aux pat repl fuel rest

/-- `str.replace` on strings. -/
def str_replace (s pat repl : String) : String :=
  String.mk (replace_all_aux pat.toList repl.toList s.toList.length s.toList)

/-- Split a character list on a separator character (`str.split`). -/
def split_on_char (c : Char) : List Char → List (List Char)
  | [] => [[]]
  | d :: rest =>
      let r := split_on_char c rest
      if d = c then [] :: r
      else
        match r with
        | [] => [[d]]
        | g :: gs => (d :: g) :: gs

/-- POSIX `os.path.join a b`. -/
def path_join (a b : String) : String :=
  if str_starts_with b "/" then b
  else if a = "" then b
  else if ends_with_char a '/' then a ++ b
  else a ++ "/" ++ b

/-- POSIX `os.path.basename`: the part after the last slash. -/
def path_basename (s : String) : String :=
  String.mk (((split_on_char '/' s.toList).getLast?).getD [])

/-- Python `str.title()`: uppercase each letter that follows a non-letter,
lowercase every other letter. -/
def str_title (s : String) : String :=
  String.mk ((s.toList.foldl
    (fun (st : Bool × List Char) c =>
      if c.isAlpha then
        (true, st.2 ++ [if st.1 then c.toLower else c.toUpper])
      else
        (false, st.2 ++ [c])) (false, [])).2)

/-- Folder display name (`_generate_html`, lines 127-132): `output_N` maps to
`Module N`; otherwise underscores become spaces and the name is title-cased. -/
def display_name (folder : String) : String :=
  let folder_name := path_basename folder
  if str_starts_with folder_name "output_" then
    str_replace folder_name "output_" "Module "
  else
    str_title (str_replace folder_name "_" " ")

/-- One byte of the base64 alphabet. -/
def b64char (n : Nat) : Char :=
  "ABCDEFGHIJKLMNOPQRSTUVWXYZabcdefghijklmnopqrstuvwxyz0123456789+/".toList.getD n 'A'

/-- RFC 4648 base64 of a byte list (`base64.b64encode`). -/
def base64_encode : List Nat → String
  | [] => ""
  | [a] =>
      String.mk [b64char (a / 4), b64char (a % 4 * 16)] ++ "=="
  | [a, b] =>
      String.mk [b64char (a / 4), b64char (a % 4 * 16 + b / 16),
                 b64char (b % 16 * 4)] ++ "="
  | a :: b :: c :: rest =>
      String.mk [b64char (a / 4), b64char (a % 4 * 16 + b / 16),
                 b64char (b % 16 * 4 + c / 64), b64char (c % 64)]
        ++ base64_encode rest

/-- An option of a question record: `{text, is_correct_answer}`, both fields
optional (`option.get('text', '')`, `option.get('is_correct_answer', False)`). -/
structure QOption where
  text : Option String
  is_correct_answer : Option Bool
deriving DecidableEq, Repr

/-- A table row: an insertion-ordered string-to-string mapping. -/
abbrev Row := List (String × String)

/-- A polymorphic explanation element, discriminated by its `type` field:
`text`, `image`, `table_processed_vlm` (its `data.table` rows), or anything
else (skipped by the renderer). -/
inductive ExplElement where
  | text (content : Option String)
  | image (path : Option String)
  | table (table : Option (List Row))
  | other (ty : Option String)
deriving DecidableEq, Repr

/-- A question record as read from `questions.json` (before the aggregator
injects `base_path`).  All fields are optional in the source dicts. -/
structure RawQuestion where
  question_number : Option String
  text : Option String
  question_media_path : Option String
  options : Option (List QOption)
  labels : Option (List String)
  explanation_elements : Option (List ExplElement)
deriving DecidableEq, Repr

/-- A question record after `_parse_questions` set `q['base_path']`. -/
structure Question extends RawQuestion where
  base_path : String
deriving DecidableEq, Repr

/-- `q['base_path'] = folder_path` performed by the aggregator. -/
def RawQuestion.withBase (rq : RawQuestion) (p : String) : Question :=
  { toRawQuestion := rq, base_path := p }

/-- The pure-environment part visible to the HTML formatter: the filesystem
(`os.path.exists`, reading bytes), `mimetypes.guess_type` and the external
`markdown.markdown` renderer. -/
structure Env where
  fsExists : String → Bool
  readFile : String → List Nat
  guessMime : String → Option String
  markdown : String → String

/-- One structured HTML fragment; each constructor mirrors one string piece
the Python code appends to its `html` accumulator. -/
inductive Frag where
  | docHead
  | moduleHeader (name : String)
  | pageBreak
  | questionHeader (num : String)
  | questionText (html : String)
  | questionImage (uri : String)
  | optionsOpen
  | optionPara (text : String)
  | optionsClose
  | correctAnswer (text : String)
  | labelsBlock (labels : List String)
  | explanationHeader
  | explText (content : String)
  | explImage (uri : String)
  | explTable (headers : List String) (rows : List (List String))
  | docFoot
deriving DecidableEq, Repr

/-- `_image_to_base64_uri`: MIME type from the extension (defaulting to
`application/octet-stream`), then the base64 data URI of the file bytes. -/
def image_to_base64_uri (env : Env) (image_path : String) : String :=
  let mime := (env.guessMime image_path).getD "application/octet-stream"
  "data:" ++ mime ++ ";base64," ++ base64_encode (env.readFile image_path)

/-- The question-image block (`_format_question_as_html`, lines 156-163):
a truthy `question_media_path` is separator-normalized, joined to the
record's `base_path`, and embedded only if the file exists. -/
def question_image_frags (env : Env) (q : Question) : List Frag :=
  match q.question_media_path with
  | some p =>
      if p = "" then []
      else
        let media_path := replace_backslashes p
        let img_path := path_join q.base_path media_path
        if env.fsExists img_path then
          [Frag.questionImage (image_to_base64_uri env img_path)]
        else []
  | none => []

/-- The option loop (lines 167-173): starting from `"N/A"`, each flagged
option overwrites the correct-answer text, and every option appends one
plain paragraph. -/
def options_loop (opts : List QOption) : String × List Frag :=
  opts.foldl
    (fun st o =>
      ((if o.is_correct_answer.getD false then o.text.getD "" else st.1),
       st.2 ++ [Frag.optionPara (o.text.getD "")]))
    ("N/A", [])

/-- The labels block (lines 179-181): emitted only when `labels` is truthy,
i.e. present and non-empty. -/
def labels_frags (q : Question) : List Frag :=
  match q.labels with
  | some (l :: ls) => [Frag.labelsBlock (l :: ls)]
  | _ => []

/-- One explanation element (lines 185-208): text renders a paragraph; image
resolves against `base_path` and is skipped when absent; a non-empty table
takes its headers from the first row's keys and each row's cells by key
lookup with `''` default; unrecognized types are skipped. -/
def expl_element_frags (env : Env) (base_path : String) : ExplElement → List Frag
  | ExplElement.text content => [Frag.explText (content.getD "")]
  | ExplElement.image path =>
      let media_path := replace_backslashes (path.getD "")
      let img_path := path_join base_path media_path
      if env.fsExists img_path then
        [Frag.explImage (image_to_base64_uri env img_path)]
      else []
  | ExplElement.table table =>
      match table.getD [] with
      | [] => []
      | r0 :: rest =>
          let headers := r0.map Prod.fst
          [Frag.explTable headers
            ((r0 :: rest).map (fun row =>
              headers.map (fun h => (List.lookup h row).getD "")))]
  | ExplElement.other _ => []

/-- `_format_question_as_html`: heading, markdown body, optional image,
options block, bold correct-answer line, optional labels, explanation
section, trailing page break. -/
def format_question_as_html (env : Env) (q : Question) : List Frag :=
  let loop := options_loop (q.options.getD [])
  [Frag.questionHeader (q.question_number.getD ""),
   Frag.questionText (env.markdown (q.text.getD ""))]
  ++ question_image_frags env q
  ++ (Frag.optionsOpen :: (loop.2 ++ [Frag.optionsClose]))
  ++ [Frag.correctAnswer loop.1]
  ++ labels_frags q
  ++ [Frag.explanationHeader]
  ++ (q.explanation_elements.getD []).foldr
       (fun e acc => expl_element_frags env q.base_path e ++ acc) []
  ++ [Frag.pageBreak]

/-- The body loop of `_generate_html` (lines 122-141): `current_folder`
starts as `None`; a question whose `base_path` differs from it emits the
module header page and a page break before the question. -/
def generate_body (env : Env) : Option String → List Question → List Frag
  | _, [] => []
  | cur, q :: rest =>
      if cur ≠ some q.base_path then
        Frag.moduleHeader (display_name q.base_path) :: Frag.pageBreak ::
          (format_question_as_html env q ++ generate_body env (some q.base_path) rest)
      else
        format_question_as_html env q ++ generate_body env cur rest

/-- `_generate_html`: document shell around the question body. -/
def generate_html (env : Env) (questions : List Question) : List Frag :=
  Frag.docHead :: (generate_body env none questions ++ [Frag.docFoot])

/-- One input folder: its path and the parsed content of its
`questions.json` (`none` when the file does not exist). -/
structure Folder where
  path : String
  questionsJson : Option (List RawQuestion)
deriving DecidableEq, Repr

/-- A progress or completion signal emitted by the worker
(`WorkerSignals.progress` / `WorkerSignals.finished`). -/
inductive Event where
  | progress (msg : String)
  | finished (msg : String)
deriving DecidableEq, Repr

/-- `_parse_questions`: per folder, a `Reading ...` progress event; a present
file contributes its records tagged with the folder as `base_path`, an
absent file contributes a warning event and no records. -/
def parse_questions : List Folder → List Event × List Question
  | [] => ([], [])
  | f :: rest =>
      let json_path := path_join f.path "questions.json"
      let head : List Event × List Question :=
        match f.questionsJson with
        | some data =>
            ([Event.progress ("Reading " ++ json_path ++ "...")],
             data.map (fun rq => rq.withBase f.path))
        | none =>
            ([Event.progress ("Reading " ++ json_path ++ "..."),
              Event.progress ("Warning: questions.json not found in " ++ f.path)],
             [])
      let tail := parse_questions rest
      (head.1 ++ tail.1, head.2 ++ tail.2)

/-- The full environment of one `PdfWorker.run` call: the constructor
arguments, the parsed folder contents, and the outcomes of the two
effectful steps (temp-file creation, renderer subprocess). -/
structure RunEnv extends Env where
  folders : List Folder
  output_pdf_path : String
  tempResult : Except String String
  nodeScriptExists : Bool
  rendererResult : Except String (Int × String)
  is_running : Bool

/-- The observable outcome of one `PdfWorker.run` call. -/
structure RunState where
  events : List Event
  html : Option (List Frag)
  rendererInvoked : Bool
  tempCreated : Bool
  tempOnDisk : Bool
  tempRemoved : Bool

/-- The `try` block of `PdfWorker.run` (lines 36-78), each `except` path
already folded into its `finished` event. -/
def run_try (env : RunEnv) : RunState :=
  let parsed := parse_questions env.folders
  let ev := Event.progress "Starting PDF generation process..." :: parsed.1
  if parsed.2.isEmpty then
    { events := ev ++ [Event.finished "Error: No questions found in the selected folders."],
      html := none, rendererInvoked := false,
      tempCreated := false, tempOnDisk := false, tempRemoved := false }
  else
    let ev := ev ++ [Event.progress "Generating HTML content..."]
    let html := generate_html env.toEnv parsed.2
    match env.tempResult with
    | Except.error e =>
        { events := ev ++ [Event.finished ("Error: " ++ e)],
          html := some html, rendererInvoked := false,
          tempCreated := false, tempOnDisk := false, tempRemoved := false }
    | Except.ok _ =>
        let ev := ev ++ [Event.progress "Generated temporary HTML file.",
                         Event.progress "Calling Puppeteer to generate the PDF..."]
        if env.nodeScriptExists = false then
          { events := ev ++ [Event.finished
               ("Error: " ++ "The 'generate_pdf.js' script was not found.")],
            html := some html, rendererInvoked := false,
            tempCreated := true, tempOnDisk := true, tempRemoved := false }
        else
          match env.rendererResult with
          | Except.error e =>
              { events := ev ++ [Event.finished ("Error: " ++ e)],
                html := some html, rendererInvoked := true,
                tempCreated := true, tempOnDisk := true, tempRemoved := false }
          | Except.ok (rc, stderr) =>
              if rc ≠ 0 then
                { events := ev ++ [Event.finished
                     ("Error: " ++ ("Puppeteer script failed: " ++ stderr))],
                  html := some html, rendererInvoked := true,
                  tempCreated := true, tempOnDisk := true, tempRemoved := false }
              else
                { events := ev ++ [Event.progress "PDF generation complete.",
                     Event.finished ("Success! PDF saved to " ++ env.output_pdf_path)],
                  html := some html, rendererInvoked := true,
                  tempCreated := true, tempOnDisk := true, tempRemoved := false }

/-- The `finally` block (lines 79-82): when the temp path was assigned and
the file exists, remove it. -/
def run_finally (s : RunState) : RunState :=
  if s.tempCreated && s.tempOnDisk then
    { s with tempOnDisk := false, tempRemoved := true }
  else s

/-- `PdfWorker.run`: the `try` body followed unconditionally by `finally`. -/
def run (env : RunEnv) : RunState :=
  run_finally (run_try env)

/-- The completion messages among a list of emitted events. -/
def finished_events (l : List Event) : List String :=
  l.filterMap (fun e => match e with
    | Event.finished m => some m
    | Event.progress _ => none)

/-- The text of the last option in iteration order whose correct flag is
set, or the default when none is flagged (the spec's description of the
correct-answer summary). -/
def last_correct_text (opts : List QOption) (dflt : String) : String :=
  match (opts.filter (fun o => o.is_correct_answer.getD false)).getLast? with
  | some o => o.text.getD ""
  | none => dflt

theorem last_correct_text_cons (o : QOption) (os : List QOption) (a : String) :
    last_correct_text (o :: os) a =
      last_correct_text os
        (if o.is_correct_answer.getD false then o.text.getD "" else a) := by
  by_cases hp : o.is_correct_answer.getD false
  · simp only [last_correct_text, List.filter_cons, hp, if_true]
    cases hfo : os.filter (fun x => x.is_correct_answer.getD false) with
    | nil => simp
    | cons x xs =>
        simp only [List.getLast?_cons_cons]
        cases hl : (x :: xs).getLast? with
        | none => simp at hl
        | some y => rfl
  · simp only [last_correct_text, List.filter_cons, hp, if_false,
      Bool.false_eq_true]

theorem options_foldl_spec (opts : List QOption) : ∀ (a : String) (fr : List Frag),
    opts.foldl
      (fun st o =>
        ((if o.is_correct_answer.getD false then o.text.getD "" else st.1),
         st.2 ++ [Frag.optionPara (o.text.getD "")])) (a, fr)
      = (last_correct_text opts a,
         fr ++ opts.map (fun o => Frag.optionPara (o.text.getD ""))) := by
  induction opts with
  | nil => intro a fr; simp [last_correct_text]
  | cons o os ih =>
      intro a fr
      simp only [List.foldl_cons, List.map_cons]
      rw [ih, last_correct_text_cons]
      simp [List.append_assoc]

theorem options_loop_spec (opts : List QOption) :
    options_loop opts = (last_correct_text opts "N/A",
      opts.map (fun o => Frag.optionPara (o.text.getD ""))) := by
  unfold options_loop
  rw [options_foldl_spec]
  simp

theorem lookup_eq_none_of_not_mem_keys :
    ∀ (row : Row) (k : String), k ∉ row.map Prod.fst → List.lookup k row = none := by
  intro row
  induction row with
  | nil => intro k _; rfl
  | cons p ps ih =>
      intro k hk
      simp only [List.map_cons, List.mem_cons] at hk
      push_neg at hk
      have hne : (k == p.1) = false := by
        exact beq_false_of_ne hk.1
      simp only [List.lookup, hne]
      exact ih k hk.2

/-- A concrete environment shared by witness statements: no files exist,
reads return no bytes, MIME inference fails, markdown is the identity. -/
def testEnv : Env :=
  { fsExists := fun _ => false, readFile := fun _ => [],
    guessMime := fun _ => none, markdown := fun s => s }

/-- C1: the correct-answer summary line of the rendered question shows the
text of the last option in iteration order whose correct flag is set
(`"N/A"` when none is flagged), while the option paragraphs are one per
option in original order and their form is independent of the flag. -/
theorem correct_answer_is_last_flagged (env : Env) (q : Question) :
    format_question_as_html env q =
      [Frag.questionHeader (q.question_number.getD ""),
       Frag.questionText (env.markdown (q.text.getD ""))]
      ++ question_image_frags env q
      ++ (Frag.optionsOpen ::
          ((q.options.getD []).map (fun o => Frag.optionPara (o.text.getD ""))
           ++ [Frag.optionsClose]))
      ++ [Frag.correctAnswer (last_correct_text (q.options.getD []) "N/A")]
      ++ labels_frags q
      ++ [Frag.explanationHeader]
      ++ (q.explanation_elements.getD []).foldr
           (fun e acc => expl_element_frags env q.base_path e ++ acc) []
      ++ [Frag.pageBreak] := by
  unfold format_question_as_html
  rw [options_loop_spec]

/-- C2: a non-empty table explanation element renders with exactly the first
row's keys as columns, every row's cells are looked up by those keys with an
empty-string default, and a key missing from a row therefore yields an empty
cell (keys not in the first row contribute no column and no cell). -/
theorem table_columns_from_first_row (env : Env) (bp : String) (r0 : Row)
    (rest : List Row) :
    expl_element_frags env bp (ExplElement.table (some (r0 :: rest)))
      = [Frag.explTable (r0.map Prod.fst)
          ((r0 :: rest).map (fun row =>
            (r0.map Prod.fst).map (fun h => (List.lookup h row).getD "")))]
    ∧ (∀ row : Row, ∀ k : String, k ∈ r0.map Prod.fst →
        k ∉ row.map Prod.fst → (List.lookup k row).getD "" = "") := by
  constructor
  · rfl
  · intro row k _ hk
    rw [lookup_eq_none_of_not_mem_keys row k hk]
    rfl

theorem table_columns_from_first_row_witness :
    expl_element_frags testEnv "/b" (ExplElement.table
        (some [[("a", "1")], [("z", "9")]]))
      = [Frag.explTable ["a"] [["1"], [""]]]
    ∧ (List.lookup "a" ([("z", "9")] : Row)).getD "" = "" := by
  have h := table_columns_from_first_row testEnv "/b" [("a", "1")] [[("z", "9")]]
  refine ⟨?_, h.2 [("z", "9")] "a" (by decide) (by decide)⟩
  rw [h.1]
  rfl

/-- `true` for every fragment that is not image, label, or table markup. -/
def no_media_label_table (f : Frag) : Bool :=
  match f with
  | Frag.questionImage _ => false
  | Frag.explImage _ => false
  | Frag.labelsBlock _ => false
  | Frag.explTable _ _ => false
  | _ => true

/-- C9: a question record with its base path assigned and every optional
field absent renders (totally, no failure is possible) to a fragment list
whose correct-answer line is `"N/A"` and which contains no image, label, or
table markup. -/
theorem empty_record_renders (env : Env) (bp : String) :
    format_question_as_html env
        (RawQuestion.withBase ⟨none, none, none, none, none, none⟩ bp)
      = [Frag.questionHeader "", Frag.questionText (env.markdown ""),
         Frag.optionsOpen, Frag.optionsClose, Frag.correctAnswer "N/A",
         Frag.explanationHeader, Frag.pageBreak]
    ∧ (format_question_as_html env
        (RawQuestion.withBase ⟨none, none, none, none, none, none⟩ bp)).contains
        (Frag.correctAnswer "N/A") = true
    ∧ (format_question_as_html env
        (RawQuestion.withBase ⟨none, none, none, none, none, none⟩ bp)).all
        no_media_label_table = true := by
  refine ⟨rfl, ?_, ?_⟩ <;> rfl

/-- C8: a question media reference is resolved against the record's base
path after separator normalization; when the file does not exist the image
element is omitted entirely, and when it exists the rendered element is an
inline base64 data URI built from the file's bytes, tagged with the MIME
type inferred from the name and defaulting to `application/octet-stream`
(the read occurs only under the existence guard, and the emitted fragment
carries no file path). -/
theorem media_resolved_to_data_uri (env : Env) (q : Question) (p : String)
    (hp : q.question_media_path = some p) (hne : p ≠ "") :
    (env.fsExists (path_join q.base_path (replace_backslashes p)) = false →
      question_image_frags env q = [])
    ∧ (env.fsExists (path_join q.base_path (replace_backslashes p)) = true →
      question_image_frags env q =
        [Frag.questionImage
          ("data:" ++
            ((env.guessMime (path_join q.base_path (replace_backslashes p))).getD
              "application/octet-stream")
            ++ ";base64," ++
            base64_encode
              (env.readFile (path_join q.base_path (replace_backslashes p))))]) := by
  constructor
  · intro hex
    simp [question_image_frags, hp, hne, hex]
  · intro hex
    simp [question_image_frags, hp, hne, hex, image_to_base64_uri]

/-- A record whose media reference uses a Windows-style separator. -/
def qMedia : Question :=
  RawQuestion.withBase ⟨none, none, some "img\\pic.png", none, none, none⟩ "/base"

/-- An environment in which exactly `/base/img/pic.png` exists, with three
bytes of content and an inferred image MIME type. -/
def env8 : Env :=
  { fsExists := fun s => s == "/base/img/pic.png",
    readFile := fun _ => [77, 97, 110],
    guessMime := fun _ => some "image/png",
    markdown := fun s => s }

theorem media_resolved_to_data_uri_witness :
    qMedia.question_media_path = some "img\\pic.png"
    ∧ ("img\\pic.png" : String) ≠ ""
    ∧ question_image_frags env8 qMedia =
        [Frag.questionImage "data:image/png;base64,TWFu"] := by
  have h := (media_resolved_to_data_uri env8 qMedia "img\\pic.png" rfl
    (by decide)).2 (by decide)
  exact ⟨rfl, by decide, by rw [h]; decide⟩

@[simp] theorem finished_events_nil : finished_events [] = [] := rfl

@[simp] theorem finished_events_cons_progress (m : String) (l : List Event) :
    finished_events (Event.progress m :: l) = finished_events l := rfl

@[simp] theorem finished_events_cons_finished (m : String) (l : List Event) :
    finished_events (Event.finished m :: l) = m :: finished_events l := rfl

@[simp] theorem finished_events_append (l₁ l₂ : List Event) :
    finished_events (l₁ ++ l₂) = finished_events l₁ ++ finished_events l₂ :=
  List.filterMap_append l₁ l₂ _

@[simp] theorem parse_questions_no_finished (fs : List Folder) :
    finished_events (parse_questions fs).1 = [] := by
  induction fs with
  | nil => rfl
  | cons f rest ih =>
      unfold parse_questions
      cases f.questionsJson <;> simp [ih]

@[simp] theorem run_finally_events (s : RunState) :
    (run_finally s).events = s.events := by
  unfold run_finally; split <;> rfl

@[simp] theorem run_finally_html (s : RunState) :
    (run_finally s).html = s.html := by
  unfold run_finally; split <;> rfl

@[simp] theorem run_finally_rendererInvoked (s : RunState) :
    (run_finally s).rendererInvoked = s.rendererInvoked := by
  unfold run_finally; split <;> rfl

@[simp] theorem run_finally_tempCreated (s : RunState) :
    (run_finally s).tempCreated = s.tempCreated := by
  unfold run_finally; split <;> rfl

theorem run_try_temp (env : RunEnv) :
    (run_try env).tempOnDisk = (run_try env).tempCreated := by
  unfold run_try
  by_cases hE : (parse_questions env.folders).2.isEmpty
  · simp [hE]
  · cases hT : env.tempResult with
    | error e => simp [hE, hT]
    | ok t =>
        by_cases hN : env.nodeScriptExists = false
        · simp [hE, hT, hN]
        · cases hR : env.rendererResult with
          | error e => simp [hE, hT, hN, hR]
          | ok pr =>
              obtain ⟨rc, stderr⟩ := pr
              by_cases hrc : rc = 0
              · simp [hE, hT, hN, hR, hrc]
              · simp [hE, hT, hN, hR, hrc]

/-- C3: whenever the temporary HTML document was created during a run, it is
no longer on disk when the run ends, and the `finally` removal was actually
performed — on the success path, the non-zero renderer exit path, and every
exception path alike. -/
theorem temp_file_always_cleaned (env : RunEnv) :
    (run env).tempOnDisk = false
    ∧ ((run env).tempCreated = true → (run env).tempRemoved = true) := by
  have ht := run_try_temp env
  unfold run run_finally
  by_cases h : (run_try env).tempCreated = true
  · have hd : (run_try env).tempOnDisk = true := by rw [ht, h]
    simp [h, hd]
  · have hc : (run_try env).tempCreated = false := by
      cases hcc : (run_try env).tempCreated
      · rfl
      · exact absurd hcc h
    have hd : (run_try env).tempOnDisk = false := by rw [ht, hc]
    simp [hc, hd]

/-- A concrete two-option record used by the run-level witnesses. -/
def rq0 : RawQuestion :=
  ⟨some "1", some "What is it?",
   none, some [⟨some "A", some false⟩, ⟨some "B", some true⟩], none, none⟩

/-- A concrete environment for a fully successful run. -/
def envOk : RunEnv :=
  { toEnv := testEnv,
    folders := [⟨"/root/output_1", some [rq0]⟩],
    output_pdf_path := "/out/m1.pdf",
    tempResult := Except.ok "/tmp/t.html",
    nodeScriptExists := true,
    rendererResult := Except.ok (0, ""),
    is_running := true }

theorem temp_file_always_cleaned_witness :
    (run envOk).tempCreated = true ∧ (run envOk).tempRemoved = true :=
  ⟨rfl, (temp_file_always_cleaned envOk).2 rfl⟩

/-- C4: every run emits exactly one completion event, and its message is
either the success string containing the output path or a message prefixed
`Error:`; every modelled exception path of the job body ends in such an
`Error:` completion event instead of escaping the job. -/
theorem single_completion_event (env : RunEnv) :
    ∃ m, finished_events (run env).events = [m]
      ∧ (m = "Success! PDF saved to " ++ env.output_pdf_path
         ∨ ∃ r, m = "Error:" ++ r) := by
  unfold run
  rw [run_finally_events]
  unfold run_try
  by_cases hE : (parse_questions env.folders).2.isEmpty
  · refine ⟨"Error: No questions found in the selected folders.", ?_, Or.inr ⟨" No questions found in the selected folders.", rfl⟩⟩
    simp [hE]
  · cases hT : env.tempResult with
    | error e =>
        refine ⟨"Error: " ++ e, ?_, Or.inr ⟨" " ++ e, ?_⟩⟩
        · simp [hE, hT]
        · rw [← String.append_assoc]; rfl
    | ok t =>
        by_cases hN : env.nodeScriptExists = false
        · refine ⟨"Error: " ++ "The 'generate_pdf.js' script was not found.", ?_,
            Or.inr ⟨" The 'generate_pdf.js' script was not found.", rfl⟩⟩
          simp [hE, hT, hN]
        · cases hR : env.rendererResult with
          | error e =>
              refine ⟨"Error: " ++ e, ?_, Or.inr ⟨" " ++ e, ?_⟩⟩
              · simp [hE, hT, hN, hR]
              · rw [← String.append_assoc]; rfl
          | ok pr =>
              obtain ⟨rc, stderr⟩ := pr
              by_cases hrc : rc = 0
              · refine ⟨"Success! PDF saved to " ++ env.output_pdf_path, ?_, Or.inl rfl⟩
                simp [hE, hT, hN, hR, hrc]
              · refine ⟨"Error: " ++ ("Puppeteer script failed: " ++ stderr), ?_,
                  Or.inr ⟨" " ++ ("Puppeteer script failed: " ++ stderr), ?_⟩⟩
                · simp [hE, hT, hN, hR, hrc]
                · rw [← String.append_assoc]; rfl

theorem parse_questions_empty (fs : List Folder)
    (h : ∀ f ∈ fs, f.questionsJson = none ∨ f.questionsJson = some []) :
    (parse_questions fs).2 = [] := by
  induction fs with
  | nil => rfl
  | cons f rest ih =>
      have hf := h f (by simp)
      have hrest := ih (fun x hx => h x (by simp [hx]))
      unfold parse_questions
      rcases hf with hf | hf <;> simp [hf, hrest]

/-- C5: when every folder has a missing or empty dataset, the run terminates
with the single `no questions found` error completion event, assembles no
document, and never invokes the external renderer. -/
theorem empty_aggregate_is_fatal (env : RunEnv)
    (h : ∀ f ∈ env.folders, f.questionsJson = none ∨ f.questionsJson = some []) :
    finished_events (run env).events
        = ["Error: No questions found in the selected folders."]
    ∧ (run env).html = none
    ∧ (run env).rendererInvoked = false := by
  have hq : (parse_questions env.folders).2 = [] := parse_questions_empty _ h
  unfold run
  rw [run_finally_events]
  refine ⟨?_, ?_, ?_⟩
  · unfold run_try
    simp [hq]
  · rw [run_finally_html]
    unfold run_try
    simp [hq]
  · rw [run_finally_rendererInvoked]
    unfold run_try
    simp [hq]

/-- A concrete environment whose folders have one missing and one empty
dataset. -/
def envEmpty : RunEnv :=
  { toEnv := testEnv,
    folders := [⟨"/root/a", none⟩, ⟨"/root/b", some []⟩],
    output_pdf_path := "/out/x.pdf",
    tempResult := Except.ok "/tmp/t.html",
    nodeScriptExists := true,
    rendererResult := Except.ok (0, ""),
    is_running := true }

theorem empty_aggregate_is_fatal_witness :
    (∀ f ∈ envEmpty.folders,
        f.questionsJson = none ∨ f.questionsJson = some [])
    ∧ finished_events (run envEmpty).events
        = ["Error: No questions found in the selected folders."]
    ∧ (run envEmpty).html = none
    ∧ (run envEmpty).rendererInvoked = false := by
  have h : ∀ f ∈ envEmpty.folders,
      f.questionsJson = none ∨ f.questionsJson = some [] := by decide
  have hc := empty_aggregate_is_fatal envEmpty h
  exact ⟨h, hc.1, hc.2.1, hc.2.2⟩

/-- The environment of a run on which `stop()` was already called before the
job started: the cooperative flag `is_running` is `false`. -/
def envStopped : RunEnv :=
  { envOk with is_running := false }

/-- C6 (code bug): `stop()` only sets `is_running := False` and `run` never
reads that flag, so a run whose cancellation flag is already lowered still
enters every stage — the document is assembled, the external renderer is
invoked, and the run succeeds; the outcome of `run` is entirely independent
of the flag.  Only the cleanup half of the claim holds (the temporary file
is still removed). -/
theorem cancellation_flag_never_checked :
    (∀ (env : RunEnv) (b : Bool), run { env with is_running := b } = run env)
    ∧ envStopped.is_running = false
    ∧ (run envStopped).html.isSome = true
    ∧ (run envStopped).rendererInvoked = true
    ∧ finished_events (run envStopped).events
        = ["Success! PDF saved to " ++ envStopped.output_pdf_path]
    ∧ (run envStopped).tempRemoved = true := by
  refine ⟨fun env b => rfl, rfl, rfl, rfl, ?_, rfl⟩
  rfl

/-- Adjacent folders in the job's ordered list have distinct paths. -/
def adj_distinct : List Folder → Prop
  | [] => True
  | [_] => True
  | a :: b :: r => a.path ≠ b.path ∧ adj_distinct (b :: r)

instance adj_distinct_decidable : (fs : List Folder) → Decidable (adj_distinct fs)
  | [] => isTrue trivial
  | [_] => isTrue trivial
  | a :: b :: r =>
      have : Decidable (adj_distinct (b :: r)) := adj_distinct_decidable (b :: r)
      inferInstanceAs (Decidable (a.path ≠ b.path ∧ adj_distinct (b :: r)))

theorem adj_distinct_cons (f : Folder) (rest : List Folder)
    (h : adj_distinct (f :: rest)) :
    adj_distinct rest ∧ ∀ g, rest.head? = some g → f.path ≠ g.path := by
  cases rest with
  | nil => exact ⟨trivial, by intro g hg; simp at hg⟩
  | cons g r =>
      refine ⟨h.2, ?_⟩
      intro g' hg'
      simp only [List.head?_cons, Option.some.injEq] at hg'
      rw [← hg']
      exact h.1

theorem generate_body_same (env : Env) (p : String) :
    ∀ (qs rest : List Question), (∀ q ∈ qs, q.base_path = p) →
    generate_body env (some p) (qs ++ rest) =
      qs.foldr (fun q acc => format_question_as_html env q ++ acc) []
        ++ generate_body env (some p) rest := by
  intro qs
  induction qs with
  | nil => intro rest _; simp
  | cons q qs ih =>
      intro rest hq
      have hqp : q.base_path = p := hq q (by simp)
      have hrest := ih rest (fun x hx => hq x (by simp [hx]))
      simp only [List.cons_append, generate_body]
      rw [hqp]
      simp [hrest, List.append_assoc]

theorem generate_body_enter (env : Env) (p : String) (q : Question)
    (qs rest : List Question) (cur : Option String)
    (hq : q.base_path = p) (hqs : ∀ x ∈ qs, x.base_path = p)
    (hcur : cur ≠ some p) :
    generate_body env cur (q :: (qs ++ rest)) =
      Frag.moduleHeader (display_name p) :: Frag.pageBreak ::
        ((q :: qs).foldr (fun x acc => format_question_as_html env x ++ acc) []
          ++ generate_body env (some p) rest) := by
  simp only [generate_body]
  rw [hq, if_pos hcur, generate_body_same env p qs rest hqs]
  simp [List.append_assoc]

theorem generate_body_parse (env : Env) :
    ∀ (fs : List Folder) (cur : Option String),
    (∀ f ∈ fs, f.questionsJson.getD [] ≠ []) →
    adj_distinct fs →
    (∀ f, fs.head? = some f → cur ≠ some f.path) →
    generate_body env cur (parse_questions fs).2 =
      fs.foldr (fun f acc =>
        Frag.moduleHeader (display_name f.path) :: Frag.pageBreak ::
          (((f.questionsJson.getD []).map (fun rq => rq.withBase f.path)).foldr
            (fun q acc2 => format_question_as_html env q ++ acc2) [] ++ acc)) [] := by
  intro fs
  induction fs with
  | nil => intro cur _ _ _; rfl
  | cons f rest ih =>
      intro cur hne hd hcur
      cases hj : f.questionsJson with
      | none => exact absurd (by simp [hj]) (hne f (by simp))
      | some data =>
          cases data with
          | nil => exact absurd (by simp [hj]) (hne f (by simp))
          | cons d ds =>
              have hparse : (parse_questions (f :: rest)).2
                  = (RawQuestion.withBase d f.path) ::
                      ((ds.map (fun rq => rq.withBase f.path))
                        ++ (parse_questions rest).2) := by
                conv_lhs => rw [parse_questions.eq_def]
                simp [hj]
              rw [hparse]
              have hqs : ∀ x ∈ ds.map (fun rq => rq.withBase f.path),
                  x.base_path = f.path := by
                intro x hx
                simp only [List.mem_map] at hx
                obtain ⟨rq, _, hrq⟩ := hx
                rw [← hrq]
                rfl
              obtain ⟨hd', hne'⟩ := adj_distinct_cons f rest hd
              rw [generate_body_enter env f.path _ _ _ cur rfl hqs (hcur f rfl)]
              have hrec := ih (some f.path)
                (fun x hx => hne x (by simp [hx])) hd'
                (fun g hg => by
                  intro hcontra
                  exact hne' g hg (Option.some.inj hcontra))
              rw [hrec]
              simp [hj]

/-- C7: for folders with pairwise-distinct adjacent paths and non-empty
datasets, the assembled document is exactly, in folder order: each folder's
section header, then a forced page break, then that folder's records in
dataset order — so records are neither reordered nor deduplicated and each
header is followed immediately by its folder's records. -/
theorem questions_follow_folder_headers (env : Env) (fs : List Folder)
    (hne : ∀ f ∈ fs, f.questionsJson.getD [] ≠ [])
    (hd : adj_distinct fs) :
    generate_html env (parse_questions fs).2 =
      Frag.docHead ::
        (fs.foldr (fun f acc =>
          Frag.moduleHeader (display_name f.path) :: Frag.pageBreak ::
            (((f.questionsJson.getD []).map (fun rq => rq.withBase f.path)).foldr
              (fun q acc2 => format_question_as_html env q ++ acc2) [] ++ acc)) []
         ++ [Frag.docFoot]) := by
  unfold generate_html
  rw [generate_body_parse env fs none hne hd (fun f _ => by simp)]

/-- Two concrete folders with one record each. -/
def fsC : List Folder :=
  [⟨"/root/output_1", some [rq0]⟩,
   ⟨"/root/output_2", some [⟨some "2", some "Why?", none, none, none, none⟩]⟩]

theorem questions_follow_folder_headers_witness :
    (∀ f ∈ fsC, f.questionsJson.getD [] ≠ []) ∧ adj_distinct fsC ∧
    generate_html testEnv (parse_questions fsC).2 =
      Frag.docHead ::
        (fsC.foldr (fun f acc =>
          Frag.moduleHeader (display_name f.path) :: Frag.pageBreak ::
            (((f.questionsJson.getD []).map (fun rq => rq.withBase f.path)).foldr
              (fun q acc2 => format_question_as_html testEnv q ++ acc2) [] ++ acc)) []
         ++ [Frag.docFoot]) :=
  ⟨by decide, by decide,
   questions_follow_folder_headers testEnv fsC (by decide) (by decide)⟩

/-- Modelled from the spec: whether a job's collected outcome is a success.
`BatchPdfWorker` is imported by the UI (`main.py`, line 13) but its
definition is not present in `pdf_processor.py`; per the spec each job's
outcome is individually collected, success being a non-`Error:` terminal
event. -/
def job_succeeded (env : RunEnv) : Bool :=
  (finished_events (run env).events).all
    (fun m => !(str_starts_with m "Error:"))

/-- Modelled from the spec: `BatchPdfWorker` runs an ordered collection of
independent generation jobs sequentially — the failure of one job does not
abort the remaining ones — and then emits a single final aggregate message
enumerating the counts of succeeded and failed jobs. -/
def batch_run (jobs : List RunEnv) : List Event :=
  (jobs.foldr (fun j acc => (run j).events ++ acc) []) ++
    [Event.finished ("Batch complete: "
      ++ toString (jobs.countP (fun j => job_succeeded j)) ++ " succeeded, "
      ++ toString (jobs.countP (fun j => !(job_succeeded j))) ++ " failed")]

theorem batch_events_of_mem (jobs : List RunEnv) (j : RunEnv) (hj : j ∈ jobs) :
    ∃ s t, s ++ (run j).events ++ t
      = jobs.foldr (fun x acc => (run x).events ++ acc) [] := by
  induction jobs with
  | nil => cases hj
  | cons k rest ih =>
      rcases List.mem_cons.1 hj with h | h
      · exact ⟨[], rest.foldr (fun x acc => (run x).events ++ acc) [],
          by rw [h]; simp⟩
      · obtain ⟨s, t, hst⟩ := ih h
        exact ⟨(run k).events ++ s, t,
          by rw [List.foldr_cons, ← hst]; simp [List.append_assoc]⟩

/-- C10: in batch mode every job in the ordered list contributes its full
event stream to the batch (so no individual failure aborts the remaining
jobs), and the batch ends with exactly one extra terminal event whose
message carries the count of succeeded and of failed jobs, the two counts
summing to the number of jobs. -/
theorem batch_runs_all_jobs_and_counts (jobs : List RunEnv) :
    (∀ j ∈ jobs, ∃ s t, s ++ (run j).events ++ t = batch_run jobs)
    ∧ (batch_run jobs).getLast?
        = some (Event.finished ("Batch complete: "
            ++ toString (jobs.countP (fun j => job_succeeded j)) ++ " succeeded, "
            ++ toString (jobs.countP (fun j => !(job_succeeded j))) ++ " failed"))
    ∧ jobs.countP (fun j => job_succeeded j)
        + jobs.countP (fun j => !(job_succeeded j)) = jobs.length := by
  refine ⟨?_, ?_, ?_⟩
  · intro j hj
    obtain ⟨s, t, hst⟩ := batch_events_of_mem jobs j hj
    exact ⟨s, t ++ [Event.finished ("Batch complete: "
      ++ toString (jobs.countP (fun j => job_succeeded j)) ++ " succeeded, "
      ++ toString (jobs.countP (fun j => !(job_succeeded j))) ++ " failed")],
      by rw [batch_run, ← hst]; simp⟩
  · rw [batch_run]
    simp
  · have h := jobs.length_eq_countP_add_countP (fun j => job_succeeded j)
    rw [h]
    congr 1
    apply List.countP_congr
    intro j _
    simp

theorem batch_runs_all_jobs_and_counts_witness :
    job_succeeded envOk = true ∧ job_succeeded envEmpty = false ∧
    (∃ s t, s ++ (run envEmpty).events ++ t = batch_run [envOk, envEmpty]) := by
  refine ⟨rfl, rfl, ?_⟩
  exact (batch_runs_all_jobs_and_counts [envOk, envEmpty]).1 envEmpty
    (by simp [List.mem_cons])
